import Mathlib

/-!
Verification development for the rp2040-i2c-oled firmware demo
(src/main.rs). The program's own code is the linear bring-up sequence in
`main`; the peripheral layer, clock initializer, I2C controller, font
rasterizer and SSD1306 driver are external collaborators, so their
behaviour is modelled here from the specification's description of the
interfaces the core consumes, while the order and arguments of the calls
are embedded from src/main.rs itself.
-/

namespace RpOled

/-- An I2C master-mode write transaction: the 7-bit target address and the
bytes sent after the address byte. -/
structure I2CWrite where
  addr : Nat
  bytes : List Nat
deriving DecidableEq, Repr

/-- SSD1306 default I2C address, as installed by I2CDisplayInterface::new. -/
def displayAddr : Nat := 0x3C

/-- Control byte introducing a command stream on the SSD1306 wire protocol. -/
def ctrlCommand : Nat := 0x00

/-- Control byte introducing a data stream on the SSD1306 wire protocol. -/
def ctrlData : Nat := 0x40

/-- The all-zero 1024-byte framebuffer, indexed by byte index. -/
def emptyFB : Nat → Nat := fun _ => 0

/-- Index of the framebuffer byte holding column `col` of page `page`
(SSD1306 GDDRAM layout: byte at `col + 128*page`, LSB at the top row of
the page). -/
def fbIndex (col page : Nat) : Nat := col + 128 * page

/-- Modelled from the spec: setting one framebuffer pixel to on
(BinaryColor::On). Out-of-bounds pixels are silently dropped; an
in-bounds pixel (x, y) sets bit `y % 8` of the byte for column x,
page `y / 8`. -/
def setPixelOn (fb : Nat → Nat) (p : Nat × Nat) : Nat → Nat :=
  if p.1 < 128 ∧ p.2 < 64 then
    fun i => if i = fbIndex p.1 (p.2 / 8) then fb i ||| 1 <<< (p.2 % 8) else fb i
  else fb

/-- Paint a list of pixels into a framebuffer, one `setPixelOn` at a time. -/
def paint (ps : List (Nat × Nat)) (fb : Nat → Nat) : Nat → Nat :=
  ps.foldl setPixelOn fb

/-- Modelled from the spec: the pixel coordinates a text primitive covers
with a 6x10 monospaced font whose glyph bitmaps are `g` (the library's
font data, a parameter here): character `i` of the string occupies
columns `[x + 6*i, x + 6*i + 6)` and rows `[top, top + 10)`, and the
pixel for glyph cell (c, r) is on exactly when `g` says so. -/
def textPixels (g : Char → Nat → Nat → Bool) (cs : List Char) (x top : Nat) :
    List (Nat × Nat) :=
  (List.range cs.length).flatMap (fun i =>
    (List.range 6).flatMap (fun c =>
      (List.range 10).filterMap (fun r =>
        if g (cs.getD i ' ') c r then some (x + 6 * i + c, top + r)
        else none)))

/-- Modelled from the spec: Text::new(s, Point::new(x, y)) with
MonoTextStyle FONT_6X10 / BinaryColor::On, drawn into a framebuffer.
`y` is the text baseline in the graphics library's convention and the
glyph box is 10 rows tall, so the top row of the glyph boxes is `y - 10`. -/
def drawText (g : Char → Nat → Nat → Bool) (cs : List Char) (x y : Nat)
    (fb : Nat → Nat) : Nat → Nat :=
  paint (textPixels g cs x (y - 10)) fb

/-- The characters of the demo string drawn by main. -/
def helloChars : List Char := "hello,world".data

/-- Modelled from the spec: the I2C writes issued by `flush()` — two
command writes (control byte 0x00) setting the column address range
0..127 and the page address range 0..7, then the stream of all 1024
framebuffer bytes prefixed with the data control byte 0x40. -/
def flushWrites (addr : Nat) (fb : Nat → Nat) : List I2CWrite :=
  [⟨addr, ctrlCommand :: [0x21, 0x00, 0x7F]⟩,
   ⟨addr, ctrlCommand :: [0x22, 0x00, 0x07]⟩,
   ⟨addr, ctrlData :: (List.range 1024).map fb⟩]

/-- Modelled from the spec: the SSD1306 power-on command sequence issued
by `init()`, each write prefixed with the command control byte 0x00
(display off, multiplex ratio 63, display offset 0, start line 0,
segment remap, COM scan direction, COM pins 0x12, contrast, disable
entire-display-on, normal display, oscillator frequency, charge pump,
horizontal addressing, display on; operand values beyond those the spec
fixes are representative). -/
def initSequenceWrites (addr : Nat) : List I2CWrite :=
  [⟨addr, [ctrlCommand, 0xAE]⟩,
   ⟨addr, [ctrlCommand, 0xA8, 0x3F]⟩,
   ⟨addr, [ctrlCommand, 0xD3, 0x00]⟩,
   ⟨addr, [ctrlCommand, 0x40]⟩,
   ⟨addr, [ctrlCommand, 0xA1]⟩,
   ⟨addr, [ctrlCommand, 0xC8]⟩,
   ⟨addr, [ctrlCommand, 0xDA, 0x12]⟩,
   ⟨addr, [ctrlCommand, 0x81, 0xCF]⟩,
   ⟨addr, [ctrlCommand, 0xA4]⟩,
   ⟨addr, [ctrlCommand, 0xA6]⟩,
   ⟨addr, [ctrlCommand, 0xD5, 0x80]⟩,
   ⟨addr, [ctrlCommand, 0x8D, 0x14]⟩,
   ⟨addr, [ctrlCommand, 0x20, 0x00]⟩,
   ⟨addr, [ctrlCommand, 0xAF]⟩]

/-- The display driver's state in buffered graphics mode: the target
address and the in-memory framebuffer. -/
structure Display where
  addr : Nat
  fb : Nat → Nat

/-- Modelled from the spec: `flush()` streams the framebuffer and leaves
the driver state unchanged; it returns the new state and the I2C writes
performed. -/
def flush (d : Display) : Display × List I2CWrite :=
  (d, flushWrites d.addr d.fb)

/-- The uninhabited error type of drawing into the in-memory framebuffer
(core::convert::Infallible of the buffered graphics draw target). -/
def DrawTargetError : Type := Empty

/-- Modelled from the spec: drawing the demo text primitive in buffered
graphics mode mutates only the in-memory framebuffer; it performs no I2C
write and cannot fail. -/
def draw (g : Char → Nat → Nat → Bool) (d : Display) :
    Except DrawTargetError Display × List I2CWrite :=
  (Except.ok { d with fb := drawText g helloChars 0 20 d.fb }, [])

/-- The chip's singleton peripheral block (its registers are irrelevant
to the claims, only its ownership is). -/
structure Peripherals where
deriving DecidableEq, Repr

/-- Modelled from the spec: one-shot peripheral acquisition guarded by an
atomic flag (`Peripherals::take`). The input is the flag's prior value;
the output is the acquisition result and the flag's new value. -/
def take (flag : Bool) : Option Peripherals × Bool :=
  if flag then (none, true) else (some ⟨⟩, true)

/-- Modelled from the spec: a PLL output frequency — crystal frequency
times the feedback divisor, divided by the two post-dividers. -/
def pllFreq (xtal fbdiv postdiv1 postdiv2 : Nat) : Nat :=
  xtal * fbdiv / (postdiv1 * postdiv2)

/-- Modelled from the spec: the system clock frequency produced by
`init_clocks_and_plls` with the 12 MHz crystal and the default PLL_SYS
configuration (VCO 1500 MHz = 12 MHz x 125, post-divided by 6 and 2,
the standard 125 MHz operating point). -/
def systemClockFreq : Nat := pllFreq 12000000 125 6 2

/-- The target I2C bus frequency passed to the constructor (400 kHz). -/
def i2cBaud : Nat := 400000

/-- Modelled from the spec: the SCL period in system-clock cycles the I2C
constructor programs — the ratio of system clock to bus frequency,
rounded to the nearest cycle. -/
def i2cPeriod (sysHz baud : Nat) : Nat := (sysHz + baud / 2) / baud

/-- Modelled from the spec: the programmed SCL low count — three fifths
of the period is spent low, meeting the fast-mode t_LOW constraint. -/
def i2cLcnt (sysHz baud : Nat) : Nat := i2cPeriod sysHz baud * 3 / 5

/-- Modelled from the spec: the programmed SCL high count — the rest of
the period. -/
def i2cHcnt (sysHz baud : Nat) : Nat := i2cPeriod sysHz baud - i2cLcnt sysHz baud

/-- Alternate functions a GPIO pin can be reconfigured to (only the ones
this program mentions). -/
inductive PinFunc where
  | funcI2C
  | funcSio
deriving DecidableEq, Repr

/-- Pad pull configuration. -/
inductive Pull where
  | up
  | down
  | floating
deriving DecidableEq, Repr

/-- Observable effects of the program, in program order. -/
inductive Event where
  | logMsg (s : String)
  | tookPeripherals
  | pinCfg (pin : Nat) (func : PinFunc) (pull : Pull)
  | clocksReady (sysHz : Nat)
  | i2cConfigured (ctrl sda scl baud : Nat)
  | write (w : I2CWrite)
  | wfi
deriving DecidableEq, Repr

/-- Whether an event is an I2C write (traffic on the bus). -/
def Event.isI2C : Event → Bool
  | .write _ => true
  | _ => false

/-- Whether an event is a pin reconfiguration. -/
def Event.isPinCfg : Event → Bool
  | .pinCfg _ _ _ => true
  | _ => false

/-- Whether an event is an I2C controller construction. -/
def Event.isI2CConfigured : Event → Bool
  | .i2cConfigured _ _ _ _ => true
  | _ => false

/-- Fault injection for each fallible bring-up step of main: whether
peripheral acquisition, clock bring-up, display init and flush succeed. -/
structure FaultEnv where
  takeOk : Bool
  clocksOk : Bool
  initOk : Bool
  flushOk : Bool
deriving DecidableEq, Repr

/-- The nominal environment: every bring-up step succeeds. -/
def allOk : FaultEnv := ⟨true, true, true, true⟩

/-- How the program's control flow ends (within the observed fuel):
halted in the panic handler, sleeping in the terminal WFI loop, or
returned from main (which never happens). -/
inductive Outcome where
  | panicked
  | sleeping
  | returned
deriving DecidableEq, Repr

/-- Shallow embedding of `main` from src/main.rs: the trace of observable
events and the outcome, as a function of the fault environment and of a
fuel bound on how long the terminal WFI loop is observed. The order of
steps is the order of the source: log, Peripherals::take, pin
reconfigurations (gpio5 then gpio4), init_clocks_and_plls, I2C::i2c0,
display.init, Text::draw (framebuffer only), display.flush, loop-wfi.
Each `.unwrap()` halts in the panic handler on failure. -/
def mainRun (g : Char → Nat → Nat → Bool) (env : FaultEnv) (fuel : Nat) :
    List Event × Outcome :=
  let t0 := [Event.logMsg "Program start"]
  if !env.takeOk then (t0, .panicked) else
  let t1 := t0 ++ [Event.tookPeripherals,
                   Event.pinCfg 5 .funcI2C .up,
                   Event.pinCfg 4 .funcI2C .up]
  if !env.clocksOk then (t1, .panicked) else
  let t2 := t1 ++ [Event.clocksReady systemClockFreq,
                   Event.i2cConfigured 0 4 5 i2cBaud]
  if !env.initOk then (t2, .panicked) else
  let t3 := t2 ++ (initSequenceWrites displayAddr).map Event.write
  let fb := drawText g helloChars 0 20 emptyFB
  if !env.flushOk then (t3, .panicked) else
  let t4 := t3 ++ (flushWrites displayAddr fb).map Event.write
  (t4 ++ List.replicate fuel Event.wfi, .sleeping)

/-- The concatenated payload (after the 0x40 control byte) of the data
writes among a list of I2C writes. -/
def dataPayload (ws : List I2CWrite) : List Nat :=
  ((ws.filter (fun w => w.bytes.headD 0 == ctrlData)).map
    (fun w => w.bytes.tail)).flatten

/-- The framebuffer bytes streamed to the display by main's flush, as a
1024-byte list, as a function of the font's glyph bitmaps. -/
def flushedPayload (g : Char → Nat → Nat → Bool) : List Nat :=
  dataPayload (flushWrites displayAddr (drawText g helloChars 0 20 emptyFB))

/-- The glyph-bitmap bit covering pixel (px, py) of a text drawn with the
6x10 font at column origin `x`, top row `top`: the pixel lies in the
text's bounding box and the owning character's bitmap is on at the
corresponding cell. This is the claim's “font bitmap composition for a
coordinate”. -/
def glyphBitAt (g : Char → Nat → Nat → Bool) (cs : List Char)
    (x top px py : Nat) : Bool :=
  decide (x ≤ px) && decide (px - x < 6 * cs.length) &&
  decide (top ≤ py) && decide (py - top < 10) &&
  g (cs.getD ((px - x) / 6) ' ') ((px - x) % 6) (py - top)

/-- The byte the font bitmap composition predicts for column `col`, page
`page`: bit `b` is the composed bit at pixel (col, 8*page + b). -/
def composedByte (g : Char → Nat → Nat → Bool) (cs : List Char)
    (x top col page : Nat) : Nat :=
  (List.range 8).foldl
    (fun m b => if glyphBitAt g cs x top col (8 * page + b) then m ||| 1 <<< b
                else m) 0

/-- A concrete glyph-bitmap assignment (every cell dark), used to
instantiate universally quantified statements at a concrete input. -/
def gAll : Char → Nat → Nat → Bool := fun _ _ _ => true

/-! ## Theorems -/

/-- Filtering a replicated list keeps all of it or none of it. -/
theorem filter_replicate_eq (p : α → Bool) (a : α) (n : Nat) :
    (List.replicate n a).filter p = if p a then List.replicate n a else [] := by
  induction n with
  | zero => simp
  | succ n ih =>
      rw [List.replicate_succ, List.filter_cons, ih]
      by_cases h : p a <;> simp [h, List.replicate_succ]

/-- The nominal run is the fuel-0 run followed by the WFI loop's
iterations. -/
theorem mainRun_allOk_split (g : Char → Nat → Nat → Bool) (fuel : Nat) :
    mainRun g allOk fuel =
      ((mainRun g allOk 0).1 ++ List.replicate fuel Event.wfi, .sleeping) := by
  simp [mainRun, allOk]

/-- Claim C6: within one reset, peripheral acquisition succeeds exactly
once — of two consecutive calls to `take`, the first returns the
peripheral block and the second returns nothing. -/
theorem take_exactly_once :
    (take false).1 = some ⟨⟩ ∧ (take (take false).2).1 = none := by
  constructor <;> rfl

/-- Claim C5: with the 12 MHz crystal and the default PLL configuration,
the reported system clock frequency is within one percent of the 125 MHz
operating point. -/
theorem clock_within_one_percent :
    100 * (systemClockFreq - 125000000) ≤ 125000000 ∧
    100 * (125000000 - systemClockFreq) ≤ 125000000 ∧
    systemClockFreq = 125000000 := by
  refine ⟨?_, ?_, ?_⟩ <;> norm_num [systemClockFreq, pllFreq]

/-- Claim C4: for the I2C controller built with system clock `F` (at
least 5.5 MHz, which the actual 125 MHz system clock satisfies) and a
400 kHz target, the programmed high plus low count equals F / 400000
cycles to within one cycle, the high time is at least 0.6 microseconds
(10^7 * hcnt >= 6 * F) and the low time is at least 1.3 microseconds
(10^7 * lcnt >= 13 * F). -/
theorem i2c_timing_counts (F : Nat) (hF : 5500000 ≤ F) :
    (F ≤ 400000 * (i2cHcnt F i2cBaud + i2cLcnt F i2cBaud + 1) ∧
     400000 * (i2cHcnt F i2cBaud + i2cLcnt F i2cBaud) ≤ F + 400000) ∧
    6 * F ≤ 10000000 * i2cHcnt F i2cBaud ∧
    13 * F ≤ 10000000 * i2cLcnt F i2cBaud := by
  simp only [i2cHcnt, i2cLcnt, i2cPeriod, i2cBaud]
  omega

/-- Witness for the I2C timing claim at the actual system clock. -/
theorem i2c_timing_counts_witness :
    5500000 ≤ 125000000 ∧
    ((125000000 ≤
        400000 * (i2cHcnt 125000000 i2cBaud + i2cLcnt 125000000 i2cBaud + 1) ∧
      400000 * (i2cHcnt 125000000 i2cBaud + i2cLcnt 125000000 i2cBaud) ≤
        125000000 + 400000) ∧
     6 * 125000000 ≤ 10000000 * i2cHcnt 125000000 i2cBaud ∧
     13 * 125000000 ≤ 10000000 * i2cLcnt 125000000 i2cBaud) :=
  ⟨by norm_num, i2c_timing_counts 125000000 (by norm_num)⟩

/-- Claim C3: two consecutive flushes with no intervening draw produce
byte-identical I2C payloads (flush does not change the driver state). -/
theorem flush_payloads_identical (d : Display) :
    (flush (flush d).1).2 = (flush d).2 ∧ (flush d).1 = d := by
  constructor <;> rfl

/-- Claim C10: drawing in buffered graphics mode touches only the
in-memory framebuffer — it performs no I2C write, its result is always
`ok` with the address unchanged, and its error type is uninhabited, so
the draw call's unwrap can never panic. -/
theorem draw_buffered_pure (g : Char → Nat → Nat → Bool) (d : Display) :
    (draw g d).2 = [] ∧
    (∃ fb2, (draw g d).1 = Except.ok ⟨d.addr, fb2⟩) ∧
    (∀ e : DrawTargetError, False) := by
  refine ⟨rfl, ⟨drawText g helloChars 0 20 d.fb, rfl⟩, ?_⟩
  intro err
  cases err

/-- Claim C2: every flush write goes to address 0x3C with a control byte
that is 0x00 or 0x40; the first two writes set the column range 0..127
and the page range 0..7; the remaining writes are data writes whose
concatenated payload is exactly the 1024 framebuffer bytes; and every
init write is a command write (control byte 0x00) to 0x3C. -/
theorem flush_wire_protocol (fb : Nat → Nat) :
    (∀ w ∈ flushWrites displayAddr fb, w.addr = displayAddr ∧
      (w.bytes.headD 0 = ctrlCommand ∨ w.bytes.headD 0 = ctrlData)) ∧
    (flushWrites displayAddr fb).take 2 =
      [⟨displayAddr, [ctrlCommand, 0x21, 0x00, 0x7F]⟩,
       ⟨displayAddr, [ctrlCommand, 0x22, 0x00, 0x07]⟩] ∧
    ((flushWrites displayAddr fb).drop 2).all
      (fun w => w.bytes.headD 0 == ctrlData) = true ∧
    dataPayload (flushWrites displayAddr fb) = (List.range 1024).map fb ∧
    (dataPayload (flushWrites displayAddr fb)).length = 1024 ∧
    (∀ w ∈ initSequenceWrites displayAddr, w.addr = displayAddr ∧
      w.bytes.headD 0 = ctrlCommand) := by
  refine ⟨?_, rfl, ?_, ?_, ?_, ?_⟩
  · intro w hw
    simp only [flushWrites, List.mem_cons, List.not_mem_nil, or_false] at hw
    rcases hw with rfl | rfl | rfl <;> simp [ctrlCommand, ctrlData]
  · rfl
  · simp [dataPayload, flushWrites, ctrlCommand, ctrlData]
  · simp [dataPayload, flushWrites, ctrlCommand, ctrlData]
  · intro w hw
    simp only [initSequenceWrites, List.mem_cons, List.not_mem_nil, or_false] at hw
    rcases hw with rfl | rfl | rfl | rfl | rfl | rfl | rfl | rfl | rfl | rfl |
      rfl | rfl | rfl | rfl <;> simp [ctrlCommand]

/-- Claim C7: the only pin reconfigurations the program performs are
GPIO5 and GPIO4 to the I2C alternate function with pull-up (in that
source order), and the one I2C controller it constructs is I2C0 with
GPIO4 as SDA, GPIO5 as SCL at 400 kHz. -/
theorem pins_and_i2c_construction (g : Char → Nat → Nat → Bool) (fuel : Nat) :
    (mainRun g allOk fuel).1.filter Event.isPinCfg =
      [Event.pinCfg 5 .funcI2C .up, Event.pinCfg 4 .funcI2C .up] ∧
    (mainRun g allOk fuel).1.filter Event.isI2CConfigured =
      [Event.i2cConfigured 0 4 5 i2cBaud] := by
  rw [mainRun_allOk_split]
  simp [mainRun, allOk, List.filter_append, filter_replicate_eq,
    initSequenceWrites, flushWrites, Event.isPinCfg, Event.isI2CConfigured]

/-- Claim C8: if any bring-up step fails (peripheral take, clock
bring-up, display init, flush), main halts in the panic handler: the
outcome is `panicked`, the terminal WFI loop is never reached, and the
produced trace is a prefix of the nominal trace — no operation after the
failing one is performed. -/
theorem bringup_failfast (g : Char → Nat → Nat → Bool) (env : FaultEnv)
    (fuel : Nat)
    (h : ¬(env.takeOk = true ∧ env.clocksOk = true ∧ env.initOk = true ∧
           env.flushOk = true)) :
    (mainRun g env fuel).2 = .panicked ∧
    Event.wfi ∉ (mainRun g env fuel).1 ∧
    ∃ rest, (mainRun g allOk fuel).1 = (mainRun g env fuel).1 ++ rest := by
  obtain ⟨tk, ck, ik, fk⟩ := env
  simp only at h
  cases tk <;> cases ck <;> cases ik <;> cases fk <;>
    simp_all [mainRun, allOk, initSequenceWrites, flushWrites]

/-- Witness for the fail-fast claim: clock bring-up fails. -/
theorem bringup_failfast_witness :
    (¬((FaultEnv.mk true false true true).takeOk = true ∧
       (FaultEnv.mk true false true true).clocksOk = true ∧
       (FaultEnv.mk true false true true).initOk = true ∧
       (FaultEnv.mk true false true true).flushOk = true)) ∧
    ((mainRun gAll ⟨true, false, true, true⟩ 3).2 = .panicked ∧
     Event.wfi ∉ (mainRun gAll ⟨true, false, true, true⟩ 3).1 ∧
     ∃ rest, (mainRun gAll allOk 3).1 =
       (mainRun gAll ⟨true, false, true, true⟩ 3).1 ++ rest) :=
  ⟨by decide, bringup_failfast gAll ⟨true, false, true, true⟩ 3 (by decide)⟩

/-- Claim C9: in the nominal run the program, after the flush, only
iterates the WFI loop — the trace is the fuel-0 trace followed by `fuel`
wait-for-interrupt events, none of which is I2C traffic, the outcome is
`sleeping`, and no run of main ever returns. -/
theorem terminal_wfi_loop (g : Char → Nat → Nat → Bool) (fuel : Nat) :
    (mainRun g allOk fuel).1 =
      (mainRun g allOk 0).1 ++ List.replicate fuel Event.wfi ∧
    (List.replicate fuel Event.wfi).all
      (fun e => !e.isI2C && (e == Event.wfi)) = true ∧
    (mainRun g allOk fuel).2 = .sleeping ∧
    ∀ env2 fuel2, (mainRun g env2 fuel2).2 ≠ Outcome.returned := by
  refine ⟨?_, ?_, ?_, ?_⟩
  · rw [mainRun_allOk_split]
  · simp [List.all_eq_true, Event.isI2C]
  · rw [mainRun_allOk_split]
  · intro env2 fuel2
    obtain ⟨tk, ck, ik, fk⟩ := env2
    cases tk <;> cases ck <;> cases ik <;> cases fk <;> simp [mainRun]

/-! ## Framebuffer composition (claim C1) -/

/-- Whether painting pixel `p` contributes bit `b` of framebuffer byte
`idx`. -/
def hitBit (p : Nat × Nat) (idx b : Nat) : Bool :=
  decide (p.1 < 128) && decide (p.2 < 64) &&
  decide (idx = fbIndex p.1 (p.2 / 8)) && decide (p.2 % 8 = b)

/-- One bit of a shifted one. -/
theorem one_shiftLeft_testBit (k b : Nat) :
    (1 <<< k).testBit b = decide (k = b) := by
  rw [Nat.shiftLeft_eq, one_mul, Nat.testBit_two_pow]

/-- One `setPixelOn`, seen bit by bit. -/
theorem setPixelOn_testBit (fb : Nat → Nat) (p : Nat × Nat) (idx b : Nat) :
    (setPixelOn fb p idx).testBit b = ((fb idx).testBit b || hitBit p idx b) := by
  unfold setPixelOn hitBit
  split
  · rename_i hin
    show (if idx = fbIndex p.1 (p.2 / 8) then fb idx ||| 1 <<< (p.2 % 8)
          else fb idx).testBit b = _
    by_cases hidx : idx = fbIndex p.1 (p.2 / 8)
    · rw [if_pos hidx, Nat.testBit_lor, one_shiftLeft_testBit]
      simp [hin.1, hin.2, hidx]
    · simp [hidx, hin.1, hin.2]
  · rename_i hout
    rcases Decidable.not_and_iff_or_not.mp hout with h | h <;> simp [h]

/-- Painting a pixel list, seen bit by bit: a bit is set exactly when it
was set before or some painted pixel contributes it. -/
theorem paint_testBit (ps : List (Nat × Nat)) (fb : Nat → Nat) (idx b : Nat) :
    (paint ps fb idx).testBit b =
      ((fb idx).testBit b || ps.any (fun p => hitBit p idx b)) := by
  induction ps generalizing fb with
  | nil => simp [paint]
  | cons p ps ih =>
      show (paint ps (setPixelOn fb p) idx).testBit b = _
      rw [ih, setPixelOn_testBit, List.any_cons, Bool.or_assoc]

/-- Accumulating bit masks over a list, seen bit by bit. -/
theorem foldl_mask_testBit (f : Nat → Bool) (l : List Nat) (m b : Nat) :
    (l.foldl (fun acc t => if f t then acc ||| 1 <<< t else acc) m).testBit b =
      (m.testBit b || l.any (fun t => f t && decide (t = b))) := by
  induction l generalizing m with
  | nil => simp
  | cons t l ih =>
      rw [List.foldl_cons, ih, List.any_cons]
      by_cases hf : f t
      · simp only [hf, if_pos, Bool.true_and]
        rw [Nat.testBit_lor, one_shiftLeft_testBit, Bool.or_assoc]
      · simp [hf]

/-- Searching `range n` for the one index equal to `b`. -/
theorem range_any_at (q : Nat → Bool) (n b : Nat) :
    ((List.range n).any fun t => q t && decide (t = b)) =
      (decide (b < n) && q b) := by
  rw [Bool.eq_iff_iff]
  simp only [List.any_eq_true, List.mem_range, Bool.and_eq_true,
    decide_eq_true_eq]
  constructor
  · rintro ⟨t, ht, hq, rfl⟩
    exact ⟨ht, hq⟩
  · rintro ⟨hb, hq⟩
    exact ⟨b, hb, hq, rfl⟩

/-- The composed byte, seen bit by bit. -/
theorem composedByte_testBit (g : Char → Nat → Nat → Bool) (cs : List Char)
    (x top col page b : Nat) :
    (composedByte g cs x top col page).testBit b =
      (decide (b < 8) && glyphBitAt g cs x top col (8 * page + b)) := by
  unfold composedByte
  rw [foldl_mask_testBit, range_any_at]
  simp

/-- The demo string has eleven characters. -/
theorem helloChars_length : helloChars.length = 11 := rfl

/-- Membership in the pixel list of a drawn text. -/
theorem mem_textPixels (g : Char → Nat → Nat → Bool) (cs : List Char)
    (x top : Nat) (p : Nat × Nat) :
    p ∈ textPixels g cs x top ↔
      ∃ i, i < cs.length ∧ ∃ c, c < 6 ∧ ∃ r, r < 10 ∧
        g (cs.getD i ' ') c r = true ∧ p = (x + 6 * i + c, top + r) := by
  simp only [textPixels, List.mem_flatMap, List.mem_filterMap, List.mem_range,
    Option.ite_none_right_eq_some, Option.some_inj]
  constructor
  · rintro ⟨i, hi, c, hc, r, hr, hg, rfl⟩
    exact ⟨i, hi, c, hc, r, hr, hg, rfl⟩
  · rintro ⟨i, hi, c, hc, r, hr, hg, rfl⟩
    exact ⟨i, hi, c, hc, r, hr, hg, rfl⟩


/-- Bits contributed to framebuffer byte (col, page) by the drawn demo
text are exactly the composed glyph bits. -/
theorem hello_hit_iff (g : Char → Nat → Nat → Bool) (col page b : Nat)
    (hc : col < 128) :
    ((textPixels g helloChars 0 10).any fun p => hitBit p (fbIndex col page) b) =
      (decide (b < 8) && glyphBitAt g helloChars 0 10 col (8 * page + b)) := by
  rw [Bool.eq_iff_iff]
  simp only [List.any_eq_true, Bool.and_eq_true, decide_eq_true_eq]
  constructor
  · rintro ⟨p, hp, hhit⟩
    rw [mem_textPixels] at hp
    obtain ⟨i, hi, c, hc6, r, hr, hg, rfl⟩ := hp
    simp only [hitBit, fbIndex, Bool.and_eq_true, decide_eq_true_eq] at hhit
    obtain ⟨⟨⟨h1, h2⟩, h3⟩, h4⟩ := hhit
    rw [helloChars_length] at hi
    have e1 : col = 6 * i + c := by omega
    have e2 : 8 * page + b = 10 + r := by omega
    simp only [glyphBitAt, helloChars_length, Bool.and_eq_true,
      decide_eq_true_eq, Nat.sub_zero]
    refine ⟨by omega, ⟨⟨⟨⟨Nat.zero_le _, by omega⟩, by omega⟩, by omega⟩, ?_⟩⟩
    rw [show col / 6 = i by omega, show col % 6 = c by omega,
      show 8 * page + b - 10 = r by omega]
    exact hg
  · rintro ⟨hb, hglyph⟩
    simp only [glyphBitAt, helloChars_length, Bool.and_eq_true,
      decide_eq_true_eq, Nat.sub_zero] at hglyph
    obtain ⟨⟨⟨⟨-, hcol⟩, hpy1⟩, hpy2⟩, hg⟩ := hglyph
    refine ⟨(0 + 6 * (col / 6) + col % 6, 10 + (8 * page + b - 10)), ?_, ?_⟩
    · rw [mem_textPixels, helloChars_length]
      exact ⟨col / 6, by omega, col % 6, by omega, 8 * page + b - 10, by omega,
        hg, rfl⟩
    · simp only [hitBit, fbIndex, Bool.and_eq_true, decide_eq_true_eq]
      refine ⟨⟨⟨by omega, by omega⟩, by omega⟩, by omega⟩

/-- The flush payload is exactly the framebuffer bytes in index order. -/
theorem flushedPayload_eq (g : Char → Nat → Nat → Bool) :
    flushedPayload g =
      (List.range 1024).map (drawText g helloChars 0 20 emptyFB) := by
  simp [flushedPayload, dataPayload, flushWrites, ctrlCommand, ctrlData]

/-- Indexing into a tabulated list. -/
theorem getD_range_map (f : Nat → Nat) (n i : Nat) (h : i < n) :
    ((List.range n).map f).getD i 0 = f i := by
  simp [List.getD_eq_getElem?_getD, List.getElem?_map, List.getElem?_range h]

/-- The drawn framebuffer byte equals the composed byte. -/
theorem hello_fb_byte (g : Char → Nat → Nat → Bool) (col page : Nat)
    (hc : col < 128) :
    drawText g helloChars 0 20 emptyFB (fbIndex col page) =
      composedByte g helloChars 0 10 col page := by
  apply Nat.eq_of_testBit_eq
  intro b
  rw [drawText, show (20 : Nat) - 10 = 10 from rfl, paint_testBit,
    composedByte_testBit, hello_hit_iff g col page b hc]
  simp [emptyFB]

/-- Outside the text's bounding box the composed byte is zero. -/
theorem composedByte_outside (g : Char → Nat → Nat → Bool) (col page : Nat)
    (h : 66 ≤ col ∨ page = 0 ∨ 3 ≤ page) :
    composedByte g helloChars 0 10 col page = 0 := by
  apply Nat.eq_of_testBit_eq
  intro b
  rw [composedByte_testBit, Nat.zero_testBit]
  rcases Nat.lt_or_ge b 8 with hb | hb
  · simp only [hb, decide_True, Bool.true_and, glyphBitAt, helloChars_length,
      Nat.sub_zero]
    rcases h with h | h | h
    · have hh : ¬ (col < 6 * 11) := by omega
      simp [hh]
    · have hh : ¬ (10 ≤ 8 * page + b) := by omega
      simp [hh]
    · have hh : ¬ (8 * page + b - 10 < 10) := by omega
      simp [hh]
  · simp [Nat.not_lt.mpr hb]

/-- Claim C1: after drawing the demo text and flushing, the streamed
1024-byte payload holds, at every in-range coordinate, exactly the byte
the font's bitmap composition predicts (text at column origin 0, glyph
rows [10, 20) for the baseline-20 draw), and the byte is zero outside
the text's bounding box (columns 66 and up, pages other than 1 and 2). -/
theorem hello_flush_payload (g : Char → Nat → Nat → Bool) (col page : Nat)
    (hc : col < 128) (hp : page < 8) :
    (flushedPayload g).length = 1024 ∧
    (flushedPayload g).getD (fbIndex col page) 0 =
      composedByte g helloChars 0 10 col page ∧
    (66 ≤ col ∨ page = 0 ∨ 3 ≤ page →
      (flushedPayload g).getD (fbIndex col page) 0 = 0) := by
  have hidx : fbIndex col page < 1024 := by simp only [fbIndex]; omega
  rw [flushedPayload_eq]
  refine ⟨by simp, ?_, ?_⟩
  · rw [getD_range_map _ _ _ hidx, hello_fb_byte g col page hc]
  · intro h
    rw [getD_range_map _ _ _ hidx, hello_fb_byte g col page hc,
      composedByte_outside g col page h]

/-- Witness for the framebuffer claim at column 3, page 1 with the
all-dark glyph assignment. -/
theorem hello_flush_payload_witness :
    3 < 128 ∧ 1 < 8 ∧
    ((flushedPayload gAll).length = 1024 ∧
     (flushedPayload gAll).getD (fbIndex 3 1) 0 =
       composedByte gAll helloChars 0 10 3 1 ∧
     (66 ≤ 3 ∨ 1 = 0 ∨ 3 ≤ 1 →
       (flushedPayload gAll).getD (fbIndex 3 1) 0 = 0)) :=
  ⟨by decide, by decide, hello_flush_payload gAll 3 1 (by decide) (by decide)⟩

end RpOled
